import Mathlib

/-!
Shallow embedding of the `bounoable/deepl` Go client library (package `deepl`,
file `deepl.go` and companions), together with proofs about the request
construction, the response handling, the glossary TSV codec and the error
rendering. Go byte strings that the code inspects character by character are
modelled as `List Char` (`GoStr`); opaque tokens (parameter names, language
codes, auth keys) stay `String`.
-/

deriving instance DecidableEq for Except

namespace Deepl

/-- Go strings, modelled as lists of characters. -/
abbrev GoStr := List Char

/-- Shorthand turning a Lean string literal into a `GoStr`. -/
def gs (s : String) : GoStr := s.data

/-- Model of Go `strings.Split(s, sep)` for a single-character separator:
splitting the empty string yields one empty field, and every occurrence of
`sep` starts a new field. -/
def splitOnChar (sep : Char) : GoStr → List GoStr
  | [] => [[]]
  | c :: rest =>
    if c = sep then [] :: splitOnChar sep rest
    else
      match splitOnChar sep rest with
      | [] => [[c]]
      | g :: gs => (c :: g) :: gs

/-- Model of Go `strings.Join(parts, sep)` for a single-character separator. -/
def joinWith (sep : Char) : List GoStr → GoStr
  | [] => []
  | [s] => s
  | s :: rest => s ++ sep :: joinWith sep rest

/-- Model of `dropCR` inside Go `bufio.ScanLines`: strips one trailing
carriage return, if present. -/
def dropCR (s : GoStr) : GoStr :=
  if s.getLast? = some '\r' then s.dropLast else s

/-- Helper for the `bufio.Scanner` model: a final empty token, produced by a
trailing newline or by empty input, is not emitted by the scanner. -/
def dropFinalEmpty (ps : List GoStr) : List GoStr :=
  if ps.getLast? = some [] then ps.dropLast else ps

/-- Model of reading all tokens from a Go `bufio.Scanner` with the default
`bufio.ScanLines` split function: the input is split on newline characters,
a final empty token produced by a trailing newline (or by empty input) is not
emitted, and each token has one trailing carriage return stripped. -/
def scanLines (s : GoStr) : List GoStr :=
  (dropFinalEmpty (splitOnChar '\n' s)).map dropCR

/-- A GlossaryEntry represents a single source to target entry in a glossary
(`api.go`). -/
structure GlossaryEntry where
  Source : GoStr
  Target : GoStr
deriving DecidableEq, Repr

/-- The TSV encoding performed by `Client.CreateGlossary` (`deepl.go`):
each entry becomes the line `Source ++ "\t" ++ Target` and the lines are
joined with `"\n"` (no trailing newline). -/
def encodeEntriesTSV (entries : List GlossaryEntry) : GoStr :=
  joinWith '\n' (entries.map fun e => e.Source ++ '\t' :: e.Target)

/-- The per-line decode loop of `Client.ListGlossaryEntries` (`deepl.go`):
each scanned line is split on the tab character; a line that does not split
into exactly two fields aborts the decode with an error (modelled as the
offending line, standing for Go's
`fmt.Errorf("expected 2 tab-separated values, got %q", line)`). -/
def decodeEntryLines : List GoStr → Except GoStr (List GlossaryEntry)
  | [] => .ok []
  | line :: rest =>
    match splitOnChar '\t' line with
    | [src, tgt] =>
      match decodeEntryLines rest with
      | .ok es => .ok (⟨src, tgt⟩ :: es)
      | .error l => .error l
    | _ => .error line

/-- The TSV decoding performed by `Client.ListGlossaryEntries` on a response
body: scan lines with `bufio.Scanner`, then run the per-line decode loop. -/
def decodeEntries (body : GoStr) : Except GoStr (List GlossaryEntry) :=
  decodeEntryLines (scanLines body)

/-! ### Languages and enumeration-like string tokens -/

/-- Language is a deepl language code (`api.go`). -/
abbrev Language := String

/-- SplitSentence is a `split_sentences` option (`split.go`). -/
abbrev SplitSentence := String

/-- SplitNone means no splitting at all (`split.go`). -/
def SplitNone : SplitSentence := "0"

/-- SplitDefault splits on interpunction and on newlines (`split.go`). -/
def SplitDefault : SplitSentence := "1"

/-- SplitNoNewlines splits on interpunction only (`split.go`). -/
def SplitNoNewlines : SplitSentence := "nonewlines"

/-- `SplitSentence.Value` from `split.go`: the request value for split. -/
def SplitSentence.Value (split : SplitSentence) : String :=
  if split = SplitNone then "0"
  else if split = SplitDefault then "1"
  else if split = SplitNoNewlines then "nonewlines"
  else "1"

/-- Formal is a formality option (`formality.go`); `Value` returns the raw
token. -/
abbrev Formal := String

/-- `Formal.Value` from `formality.go`. -/
def Formal.Value (f : Formal) : String := f

/-- TagHandlingStrategy is a `tag_handling` option (`taghandling.go`). -/
abbrev TagHandlingStrategy := String

/-- DefaultTagHandling is the default tag handling strategy
(`taghandling.go`). -/
def DefaultTagHandling : TagHandlingStrategy := "default"

/-- `TagHandlingStrategy.Value` from `taghandling.go`: the default strategy
encodes as the empty string, every other strategy as itself. -/
def TagHandlingStrategy.Value (f : TagHandlingStrategy) : String :=
  if f = DefaultTagHandling then "" else f

/-- `boolString` from `deepl.go`. -/
def boolString (b : Bool) : String :=
  if b then "1" else "0"

/-! ### The parameter bag (`net/url.Values`) and translation options -/

/-- Model of Go `url.Values`: a map from parameter names to lists of values,
as the underlying lookup function. -/
def Values := String → List String

/-- Go `url.Values.Set`: replaces all values of `key` with the single value
`val`. -/
def Values.set (v : Values) (key val : String) : Values :=
  fun k => if k = key then [val] else v k

/-- Go `url.Values.Add`: appends `val` to the values of `key`. -/
def Values.add (v : Values) (key val : String) : Values :=
  fun k => if k = key then v k ++ [val] else v k

/-- Go `make(url.Values)`: the empty parameter bag. -/
def Values.empty : Values := fun _ => []

/-- The translation options of `deepl.go`, one constructor per option
returned by the package-level functions `SourceLang`, `ShowBilledChars`,
`SplitSentences`, `PreserveFormatting`, `Formality`, `TagHandling`,
`IgnoreTags`, `GlossaryID` and `Context`. -/
inductive TranslateOption where
  | SourceLang (lang : Language)
  | ShowBilledChars (b : Bool)
  | SplitSentences (split : SplitSentence)
  | PreserveFormatting (preserve : Bool)
  | Formality (formal : Formal)
  | TagHandling (handling : TagHandlingStrategy)
  | IgnoreTags (tags : List String)
  | GlossaryID (glossaryID : String)
  | Context (c : String)
deriving DecidableEq, Repr

/-- The effect of each translation option on the parameter bag, exactly as in
`deepl.go` (each option issues a single `vals.Set`). -/
def TranslateOption.apply : TranslateOption → Values → Values
  | .SourceLang lang, vals => vals.set "source_lang" lang
  | .ShowBilledChars b, vals => vals.set "show_billed_characters" (boolString b)
  | .SplitSentences split, vals => vals.set "split_sentences" split.Value
  | .PreserveFormatting preserve, vals =>
      vals.set "preserve_formatting" (boolString preserve)
  | .Formality formal, vals => vals.set "formality" formal.Value
  | .TagHandling handling, vals => vals.set "tag_handling" handling.Value
  | .IgnoreTags tags, vals => vals.set "ignore_tags" (String.intercalate "," tags)
  | .GlossaryID glossaryID, vals => vals.set "glossary_id" glossaryID
  | .Context c, vals => vals.set "context" c

/-- The parameter name written by a translation option. -/
def TranslateOption.key : TranslateOption → String
  | .SourceLang _ => "source_lang"
  | .ShowBilledChars _ => "show_billed_characters"
  | .SplitSentences _ => "split_sentences"
  | .PreserveFormatting _ => "preserve_formatting"
  | .Formality _ => "formality"
  | .TagHandling _ => "tag_handling"
  | .IgnoreTags _ => "ignore_tags"
  | .GlossaryID _ => "glossary_id"
  | .Context _ => "context"

/-- The encoded value written by a translation option. -/
def TranslateOption.value : TranslateOption → String
  | .SourceLang lang => lang
  | .ShowBilledChars b => boolString b
  | .SplitSentences split => split.Value
  | .PreserveFormatting preserve => boolString preserve
  | .Formality formal => formal.Value
  | .TagHandling handling => handling.Value
  | .IgnoreTags tags => String.intercalate "," tags
  | .GlossaryID glossaryID => glossaryID
  | .Context c => c

/-- The parameter bag built by `Client.TranslateMany` (`deepl.go` lines
209-219) before the request is sent: set `target_lang`, add one `text` value
per input text in order, then apply the options in order. -/
def buildTranslateValues (texts : List String) (targetLang : Language)
    (opts : List TranslateOption) : Values :=
  let vals := Values.empty.set "target_lang" targetLang
  let vals := texts.foldl (fun v text => v.add "text" text) vals
  opts.foldl (fun v o => o.apply v) vals

/-- Specification helper: the value written by the last option in the list
that sets the parameter name `n`, if any. -/
def lastOptionValue : List TranslateOption → String → Option String
  | [], _ => none
  | o :: os, n =>
    match lastOptionValue os n with
    | some w => some w
    | none => if o.key = n then some o.value else none

/-! ### The typed error and its rendering -/

/-- Error is a DeepL error (`deepl.go`): the HTTP status code returned by the
API plus the captured raw response body. Go's nil body (never captured) is
modelled as the empty byte string, matching the `len(err.Body) > 0` check of
the renderer. -/
structure Error where
  Code : Nat
  Body : GoStr
deriving DecidableEq, Repr

/-- Model of Go `net/http.StatusText`: the standard textual name registered
for an HTTP status code, or the empty string for unknown codes. -/
def statusTextStr : Nat → String
  | 100 => "Continue"
  | 101 => "Switching Protocols"
  | 102 => "Processing"
  | 103 => "Early Hints"
  | 200 => "OK"
  | 201 => "Created"
  | 202 => "Accepted"
  | 203 => "Non-Authoritative Information"
  | 204 => "No Content"
  | 205 => "Reset Content"
  | 206 => "Partial Content"
  | 207 => "Multi-Status"
  | 208 => "Already Reported"
  | 226 => "IM Used"
  | 300 => "Multiple Choices"
  | 301 => "Moved Permanently"
  | 302 => "Found"
  | 303 => "See Other"
  | 304 => "Not Modified"
  | 305 => "Use Proxy"
  | 307 => "Temporary Redirect"
  | 308 => "Permanent Redirect"
  | 400 => "Bad Request"
  | 401 => "Unauthorized"
  | 402 => "Payment Required"
  | 403 => "Forbidden"
  | 404 => "Not Found"
  | 405 => "Method Not Allowed"
  | 406 => "Not Acceptable"
  | 407 => "Proxy Authentication Required"
  | 408 => "Request Timeout"
  | 409 => "Conflict"
  | 410 => "Gone"
  | 411 => "Length Required"
  | 412 => "Precondition Failed"
  | 413 => "Request Entity Too Large"
  | 414 => "Request URI Too Long"
  | 415 => "Unsupported Media Type"
  | 416 => "Requested Range Not Satisfiable"
  | 417 => "Expectation Failed"
  | 418 => "I\x27m a teapot"
  | 421 => "Misdirected Request"
  | 422 => "Unprocessable Entity"
  | 423 => "Locked"
  | 424 => "Failed Dependency"
  | 425 => "Too Early"
  | 426 => "Upgrade Required"
  | 428 => "Precondition Required"
  | 429 => "Too Many Requests"
  | 431 => "Request Header Fields Too Large"
  | 451 => "Unavailable For Legal Reasons"
  | 500 => "Internal Server Error"
  | 501 => "Not Implemented"
  | 502 => "Bad Gateway"
  | 503 => "Service Unavailable"
  | 504 => "Gateway Timeout"
  | 505 => "HTTP Version Not Supported"
  | 506 => "Variant Also Negotiates"
  | 507 => "Insufficient Storage"
  | 508 => "Loop Detected"
  | 510 => "Not Extended"
  | 511 => "Network Authentication Required"
  | _ => ""

/-- `statusTextStr` as a Go byte string. -/
def statusText (code : Nat) : GoStr := gs (statusTextStr code)

/-- Model of the characters trimmed by Go `strings.TrimSpace` (Unicode
White_Space). -/
def isGoSpace (c : Char) : Bool :=
  c = '\t' || c = '\n' || c.toNat = 11 || c.toNat = 12 || c = '\r' || c = ' ' ||
  c.toNat = 0x85 || c.toNat = 0xA0 || c.toNat = 0x1680 ||
  (0x2000 ≤ c.toNat && c.toNat ≤ 0x200A) || c.toNat = 0x2028 ||
  c.toNat = 0x2029 || c.toNat = 0x202F || c.toNat = 0x205F || c.toNat = 0x3000

/-- Model of Go `strings.TrimSpace`: drop leading and trailing white space. -/
def trimSpace (s : GoStr) : GoStr :=
  ((s.dropWhile isGoSpace).reverse.dropWhile isGoSpace).reverse

set_option linter.dupNamespace false in
/-- `Error.Error()` from `deepl.go`: status 456 renders as the fixed quota
message regardless of body; any other status renders as
`"unexpected HTTP status "` plus the standard status text, with the trimmed
body appended in parentheses exactly when the captured body is non-empty. -/
def Error.Error (err : Error) : GoStr :=
  if err.Code = 456 then
    gs "Quota exceeded. The character limit has been reached."
  else if err.Body.length > 0 then
    gs "unexpected HTTP status " ++ statusText err.Code ++
      gs " (" ++ trimSpace err.Body ++ gs ")"
  else
    gs "unexpected HTTP status " ++ statusText err.Code

/-- The error values an operation of this package can return: a typed
`deepl.Error` (remote rejection), a wrapping via `fmt.Errorf("...: %w", err)`,
a plain message from `errors.New` / a leaf `fmt.Errorf`, or the malformed-TSV
error `fmt.Errorf("expected 2 tab-separated values, got %q", line)` carrying
the offending line. -/
inductive OpError where
  | remote (e : Error)
  | wrap (msg : String) (err : OpError)
  | message (msg : String)
  | malformedEntry (line : GoStr)
deriving DecidableEq, Repr

/-! ### Translation calls -/

/-- Translation is a translation result from deepl (`api.go`). -/
structure Translation where
  DetectedSourceLanguage : String
  Text : String
  BilledCharacters : Option Int
deriving DecidableEq, Repr

/-- The JSON payload of a successful translate response (`api.go`). -/
structure translateResponse where
  Translations : List Translation
deriving DecidableEq, Repr

/-- An HTTP response to a translate request, as far as `Client.TranslateMany`
observes it: the status code, and the outcome of JSON-decoding the body into
a `translateResponse` (the JSON wire format itself is outside the embedding). -/
structure TranslateHttpResponse where
  StatusCode : Nat
  translateJSON : Except String translateResponse
deriving DecidableEq, Repr

/-- The injected transport for translate calls (`httpi.Client.Do`): maps the
outbound parameter bag to either a transport error message or a response. -/
def TranslateTransport := Values → Except String TranslateHttpResponse

/-- The response handling of `Client.TranslateMany` (`deepl.go` lines
235-243): a status other than 200 immediately yields `Error{Code: status}`
with no body; on 200 the JSON body is decoded and its translation list
returned. -/
def translateManyResult (resp : TranslateHttpResponse) :
    Except OpError (List Translation) :=
  if resp.StatusCode ≠ 200 then .error (.remote ⟨resp.StatusCode, []⟩)
  else
    match resp.translateJSON with
    | .error m => .error (.wrap "decode deepl response" (.message m))
    | .ok r => .ok r.Translations

/-- `Client.TranslateMany` (`deepl.go`): build the parameter bag, send it via
the transport, and handle the response. -/
def TranslateMany (transport : TranslateTransport) (texts : List String)
    (targetLang : Language) (opts : List TranslateOption) :
    Except OpError (List Translation) :=
  match transport (buildTranslateValues texts targetLang opts) with
  | .error m => .error (.wrap "do request" (.message m))
  | .ok resp => translateManyResult resp

/-- `Client.Translate` (`deepl.go` lines 179-190): delegate to
`TranslateMany` with the single-element text list; wrap its errors; report an
empty result list as the dedicated "no translations" error; otherwise return
the first result's text and detected source language. -/
def Translate (transport : TranslateTransport) (text : String)
    (targetLang : Language) (opts : List TranslateOption) :
    Except OpError (String × Language) :=
  match TranslateMany transport [text] targetLang opts with
  | .error err => .error (.wrap "translate many" err)
  | .ok translations =>
    match translations with
    | [] => .error (.message "deepl responded with no translations")
    | t :: _ => .ok (t.Text, t.DetectedSourceLanguage)

/-! ### Glossary operations -/

/-- Glossary metadata as decoded from the API (`api.go`); the creation
timestamp is kept as an opaque token. -/
structure Glossary where
  GlossaryID : String
  Name : String
  Ready : Bool
  SourceLang : String
  TargetLang : String
  CreationTime : String
  EntryCount : Int
deriving DecidableEq, Repr

/-- An HTTP response as the glossary operations observe it: status code and
raw body bytes. -/
structure HttpResponse where
  StatusCode : Nat
  Body : GoStr
deriving DecidableEq, Repr

/-- `errorFromResp` (`deepl.go` lines 247-256): the typed error carrying the
response status code and the full raw response body. -/
def errorFromResp (r : HttpResponse) : OpError :=
  .remote ⟨r.StatusCode, r.Body⟩

/-- The response handling of `Client.CreateGlossary` (`deepl.go`): any status
other than 201 Created yields `errorFromResp`; otherwise the body is
JSON-decoded as a `Glossary` (the JSON decoder is an abstract parameter). -/
def CreateGlossaryResult (decodeGlossary : GoStr → Except String Glossary)
    (r : HttpResponse) : Except OpError Glossary :=
  if r.StatusCode ≠ 201 then .error (errorFromResp r)
  else
    match decodeGlossary r.Body with
    | .error m => .error (.wrap "decode deepl response" (.message m))
    | .ok g => .ok g

/-- The response handling of `Client.ListGlossaries` (`deepl.go`): any status
other than 200 yields `errorFromResp`; otherwise the body is JSON-decoded as
a wrapped glossary list. -/
def ListGlossariesResult
    (decodeGlossaries : GoStr → Except String (List Glossary))
    (r : HttpResponse) : Except OpError (List Glossary) :=
  if r.StatusCode ≠ 200 then .error (errorFromResp r)
  else
    match decodeGlossaries r.Body with
    | .error m => .error (.wrap "decode deepl response" (.message m))
    | .ok gl => .ok gl

/-- The response handling of `Client.ListGlossary` (`deepl.go`): any status
other than 200 yields `errorFromResp`; otherwise the body is JSON-decoded as
a `Glossary`. -/
def ListGlossaryResult (decodeGlossary : GoStr → Except String Glossary)
    (r : HttpResponse) : Except OpError Glossary :=
  if r.StatusCode ≠ 200 then .error (errorFromResp r)
  else
    match decodeGlossary r.Body with
    | .error m => .error (.wrap "decode deepl response" (.message m))
    | .ok g => .ok g

/-- The response handling of `Client.ListGlossaryEntries` (`deepl.go` lines
373-390): any status other than 200 yields `errorFromResp`; otherwise the
body is scanned line by line and decoded with the TSV entry decoder. -/
def ListGlossaryEntriesResult (r : HttpResponse) :
    Except OpError (List GlossaryEntry) :=
  if r.StatusCode ≠ 200 then .error (errorFromResp r)
  else
    match decodeEntries r.Body with
    | .error line => .error (.malformedEntry line)
    | .ok es => .ok es

/-- The response handling of `Client.DeleteGlossary` (`deepl.go`): any status
other than 204 No Content yields `errorFromResp`. -/
def DeleteGlossaryResult (r : HttpResponse) : Except OpError Unit :=
  if r.StatusCode ≠ 204 then .error (errorFromResp r) else .ok ()

/-! ### Client construction -/

/-- The injected HTTP transport stored in the client configuration; modelled
as an opaque token since client construction only stores it. -/
inductive HTTPTransport where
  | defaultClient
  | custom (id : Nat)
deriving DecidableEq, Repr

/-- A Client is a deepl client (`deepl.go`). -/
structure Client where
  client : HTTPTransport
  authKey : String
  baseURL : String
  translateURL : String
  glossaryURL : String
deriving DecidableEq, Repr

/-- The client-configuration options of `deepl.go`: `BaseURL` and
`HTTPClient`. -/
inductive ClientOption where
  | BaseURL (url : String)
  | HTTPClient (client : HTTPTransport)
deriving DecidableEq, Repr

/-- The effect of each client option (`deepl.go` lines 46-59): `BaseURL` sets
the base URL and re-derives the translate endpoint `{base}/translate` and the
glossary endpoint `{base}/glossaries`; `HTTPClient` replaces the transport. -/
def ClientOption.apply : ClientOption → Client → Client
  | .BaseURL url, c =>
      { c with
        baseURL := url
        translateURL := url ++ "/translate"
        glossaryURL := url ++ "/glossaries" }
  | .HTTPClient client, c => { c with client := client }

/-- V2 is the base url for v2 of the deepl API (`deepl.go`). -/
def V2 : String := "https://api.deepl.com/v2"

/-- `New` (`deepl.go` lines 135-149): start from the auth key and the default
transport, apply `BaseURL(V2)` as the default base url, then apply the caller
options in order. -/
def New (authKey : String) (opts : List ClientOption) : Client :=
  let c : Client :=
    { client := .defaultClient
      authKey := authKey
      baseURL := ""
      translateURL := ""
      glossaryURL := "" }
  let c := (ClientOption.BaseURL V2).apply c
  opts.foldl (fun c opt => opt.apply c) c

/-- Specification helper: the base URL set by the last `BaseURL` option in
the list, if any. -/
def lastBaseURL : List ClientOption → Option String
  | [] => none
  | o :: os =>
    match lastBaseURL os with
    | some b => some b
    | none =>
      match o with
      | .BaseURL b => some b
      | _ => none

/-- Specification helper: the transport set by the last `HTTPClient` option
in the list, if any. -/
def lastHTTPClient : List ClientOption → Option HTTPTransport
  | [] => none
  | o :: os =>
    match lastHTTPClient os with
    | some t => some t
    | none =>
      match o with
      | .HTTPClient t => some t
      | _ => none

/-! ### Lemmas about client construction -/

lemma foldl_apply_baseURL (opts : List ClientOption) (c : Client) :
    (opts.foldl (fun c opt => ClientOption.apply opt c) c).baseURL =
      (lastBaseURL opts).getD c.baseURL := by
  induction opts generalizing c with
  | nil => rfl
  | cons o os ih =>
    simp only [List.foldl_cons, lastBaseURL, ih]
    cases h : lastBaseURL os with
    | some b => simp
    | none => cases o <;> simp [ClientOption.apply]

lemma foldl_apply_translateURL (opts : List ClientOption) (c : Client) :
    (opts.foldl (fun c opt => ClientOption.apply opt c) c).translateURL =
      ((lastBaseURL opts).map (fun u => u ++ "/translate")).getD c.translateURL := by
  induction opts generalizing c with
  | nil => rfl
  | cons o os ih =>
    simp only [List.foldl_cons, lastBaseURL, ih]
    cases h : lastBaseURL os with
    | some b => simp
    | none => cases o <;> simp [ClientOption.apply]

lemma foldl_apply_glossaryURL (opts : List ClientOption) (c : Client) :
    (opts.foldl (fun c opt => ClientOption.apply opt c) c).glossaryURL =
      ((lastBaseURL opts).map (fun u => u ++ "/glossaries")).getD c.glossaryURL := by
  induction opts generalizing c with
  | nil => rfl
  | cons o os ih =>
    simp only [List.foldl_cons, lastBaseURL, ih]
    cases h : lastBaseURL os with
    | some b => simp
    | none => cases o <;> simp [ClientOption.apply]

lemma foldl_apply_client (opts : List ClientOption) (c : Client) :
    (opts.foldl (fun c opt => ClientOption.apply opt c) c).client =
      (lastHTTPClient opts).getD c.client := by
  induction opts generalizing c with
  | nil => rfl
  | cons o os ih =>
    simp only [List.foldl_cons, lastHTTPClient, ih]
    cases h : lastHTTPClient os with
    | some t => simp
    | none => cases o <;> simp [ClientOption.apply]

/-! ### Claim theorems: C9 and C10 -/

/-- C9: `SplitSentence.Value` maps `"0"` to `"0"`, `"1"` to `"1"`,
`"nonewlines"` to `"nonewlines"`, and every other string value to `"1"`. -/
theorem C9_split_sentence_value :
    SplitSentence.Value "0" = "0" ∧
    SplitSentence.Value "1" = "1" ∧
    SplitSentence.Value "nonewlines" = "nonewlines" ∧
    ∀ s : SplitSentence, s ≠ "0" → s ≠ "1" → s ≠ "nonewlines" →
      SplitSentence.Value s = "1" := by
  refine ⟨rfl, rfl, rfl, fun s h0 h1 hn => ?_⟩
  simp [SplitSentence.Value, SplitNone, SplitDefault, SplitNoNewlines, h0, h1, hn]

/-- C9 witness: evaluating the sentence-split encoding at the concrete
unrecognized value `"2"` through `C9_split_sentence_value`. -/
theorem C9_split_sentence_value_witness : SplitSentence.Value "2" = "1" :=
  C9_split_sentence_value.2.2.2 "2" (by decide) (by decide) (by decide)

/-- C10: the `BaseURL` option sets the base URL and derives the translate
endpoint `b ++ "/translate"` and the glossary endpoint `b ++ "/glossaries"`;
`New` with no options uses the fixed production base URL `V2`; and for every
option list the configured fields are those written by the last option that
set them (defaulting to the seeded values). -/
theorem C10_client_construction :
    ∀ (authKey : String) (opts : List ClientOption) (b : String) (c : Client),
      ((ClientOption.BaseURL b).apply c).baseURL = b ∧
      ((ClientOption.BaseURL b).apply c).translateURL = b ++ "/translate" ∧
      ((ClientOption.BaseURL b).apply c).glossaryURL = b ++ "/glossaries" ∧
      (New authKey []).baseURL = V2 ∧
      (New authKey []).translateURL = V2 ++ "/translate" ∧
      (New authKey []).glossaryURL = V2 ++ "/glossaries" ∧
      (New authKey opts).baseURL = (lastBaseURL opts).getD V2 ∧
      (New authKey opts).translateURL =
        ((lastBaseURL opts).map (fun u => u ++ "/translate")).getD (V2 ++ "/translate") ∧
      (New authKey opts).glossaryURL =
        ((lastBaseURL opts).map (fun u => u ++ "/glossaries")).getD (V2 ++ "/glossaries") ∧
      (New authKey opts).client = (lastHTTPClient opts).getD .defaultClient := by
  intro authKey opts b c
  refine ⟨rfl, rfl, rfl, rfl, rfl, rfl, ?_, ?_, ?_, ?_⟩
  · rw [New, foldl_apply_baseURL]; rfl
  · rw [New, foldl_apply_translateURL]; rfl
  · rw [New, foldl_apply_glossaryURL]; rfl
  · rw [New, foldl_apply_client]; rfl

/-! ### Claim theorems: C5, C6 and C7 -/

/-- C5: rendering a typed error yields the fixed quota message for status
456 regardless of the captured body; for every other status it yields
`"unexpected HTTP status "` followed by the standard status text, with the
whitespace-trimmed body appended in parentheses exactly when the captured
body is non-empty. -/
theorem C5_error_rendering :
    ∀ (code : Nat) (body : GoStr),
      (code = 456 →
        Error.Error ⟨code, body⟩ =
          gs "Quota exceeded. The character limit has been reached.") ∧
      (code ≠ 456 →
        Error.Error ⟨code, body⟩ =
          gs "unexpected HTTP status " ++ statusText code ++
            (if body.length > 0 then gs " (" ++ trimSpace body ++ gs ")"
             else [])) := by
  intro code body
  constructor
  · intro h
    simp [Error.Error, h]
  · intro h
    by_cases hb : body.length > 0
    · simp [Error.Error, h, hb, List.append_assoc]
    · simp [Error.Error, h, hb]

/-- C5 witness: rendering through `C5_error_rendering` at the concrete error
code 404 with a padded body, and at code 456 with a body. -/
theorem C5_error_rendering_witness :
    Error.Error ⟨404, gs " x "⟩ = gs "unexpected HTTP status Not Found (x)" ∧
    Error.Error ⟨456, gs "ignored"⟩ =
      gs "Quota exceeded. The character limit has been reached." := by
  constructor
  · exact ((C5_error_rendering 404 (gs " x ")).2 (by decide)).trans (by decide)
  · exact (C5_error_rendering 456 (gs "ignored")).1 rfl

/-- C6: on a non-success response, `TranslateMany` produces the typed error
carrying the status code and an empty (uncaptured) body, while every glossary
operation produces the typed error carrying the status code and the full raw
response body. -/
theorem C6_error_body_capture :
    ∀ (status : Nat) (body : GoStr) (js : Except String translateResponse)
      (dg : GoStr → Except String Glossary)
      (dgs : GoStr → Except String (List Glossary)),
      (status ≠ 200 →
        translateManyResult ⟨status, js⟩ = .error (.remote ⟨status, []⟩)) ∧
      (status ≠ 201 →
        CreateGlossaryResult dg ⟨status, body⟩ =
          .error (.remote ⟨status, body⟩)) ∧
      (status ≠ 200 →
        ListGlossariesResult dgs ⟨status, body⟩ =
          .error (.remote ⟨status, body⟩)) ∧
      (status ≠ 200 →
        ListGlossaryResult dg ⟨status, body⟩ =
          .error (.remote ⟨status, body⟩)) ∧
      (status ≠ 200 →
        ListGlossaryEntriesResult ⟨status, body⟩ =
          .error (.remote ⟨status, body⟩)) ∧
      (status ≠ 204 →
        DeleteGlossaryResult ⟨status, body⟩ =
          .error (.remote ⟨status, body⟩)) := by
  intro status body js dg dgs
  refine ⟨fun h => ?_, fun h => ?_, fun h => ?_, fun h => ?_, fun h => ?_,
    fun h => ?_⟩
  · simp [translateManyResult, h]
  · simp [CreateGlossaryResult, h, errorFromResp]
  · simp [ListGlossariesResult, h, errorFromResp]
  · simp [ListGlossaryResult, h, errorFromResp]
  · simp [ListGlossaryEntriesResult, h, errorFromResp]
  · simp [DeleteGlossaryResult, h, errorFromResp]

/-- C6 witness: instantiating `C6_error_body_capture` at status 456 with a
concrete body shows the translate error carries no body while the glossary
errors carry it. -/
theorem C6_error_body_capture_witness :
    translateManyResult ⟨456, .ok ⟨[]⟩⟩ = .error (.remote ⟨456, []⟩) ∧
    ListGlossaryEntriesResult ⟨456, gs "some body"⟩ =
      .error (.remote ⟨456, gs "some body"⟩) ∧
    DeleteGlossaryResult ⟨456, gs "some body"⟩ =
      .error (.remote ⟨456, gs "some body"⟩) := by
  have h := C6_error_body_capture 456 (gs "some body") (.ok ⟨[]⟩)
    (fun _ => .error "unused") (fun _ => .error "unused")
  exact ⟨h.1 (by decide), h.2.2.2.2.1 (by decide), h.2.2.2.2.2 (by decide)⟩

/-- C7 counterexample: the claim says the typed error appears exactly when
the status is not a 2xx success status, but `TranslateMany` tests the status
against 200 only: the 2xx status 201 with a perfectly decodable body still
yields the typed error. -/
theorem C7_counterexample :
    (200 ≤ 201 ∧ 201 < 300) ∧
    translateManyResult ⟨201, .ok ⟨[]⟩⟩ = .error (.remote ⟨201, []⟩) := by
  decide

/-- C7 (amended): `TranslateMany` yields the typed remote-rejection error
carrying exactly the response status code if and only if the status differs
from 200 (`http.StatusOK`); in that case the result does not depend on the
response body (the body is not decoded), and on status 200 no remote
rejection is ever produced. -/
theorem C7_amended_status_check :
    ∀ (status : Nat) (js js2 : Except String translateResponse),
      (status ≠ 200 →
        translateManyResult ⟨status, js⟩ = .error (.remote ⟨status, []⟩) ∧
        translateManyResult ⟨status, js⟩ = translateManyResult ⟨status, js2⟩) ∧
      (status = 200 →
        ∀ e : Error, translateManyResult ⟨status, js⟩ ≠ .error (.remote e)) := by
  intro status js js2
  constructor
  · intro h
    constructor
    · simp [translateManyResult, h]
    · simp [translateManyResult, h]
  · intro h e
    subst h
    cases js <;> simp [translateManyResult]

/-- C7 witness: instantiating `C7_amended_status_check` at the concrete
status 503. -/
theorem C7_amended_status_check_witness :
    translateManyResult ⟨503, .ok ⟨[]⟩⟩ = .error (.remote ⟨503, []⟩) :=
  ((C7_amended_status_check 503 (.ok ⟨[]⟩) (.error "x")).1 (by decide)).1

/-! ### Lemmas about the parameter bag -/

lemma TranslateOption.apply_eq_set (o : TranslateOption) (v : Values) :
    o.apply v = v.set o.key o.value := by
  cases o <;> rfl

lemma TranslateOption.key_ne_target_lang (o : TranslateOption) :
    o.key ≠ "target_lang" := by
  cases o <;> simp [TranslateOption.key]

lemma TranslateOption.key_ne_text (o : TranslateOption) : o.key ≠ "text" := by
  cases o <;> simp [TranslateOption.key]

lemma lastOptionValue_eq_none (opts : List TranslateOption) (n : String)
    (h : ∀ o : TranslateOption, o.key ≠ n) : lastOptionValue opts n = none := by
  induction opts with
  | nil => rfl
  | cons o os ih => simp [lastOptionValue, ih, h o]

lemma foldl_apply_values (opts : List TranslateOption) (v : Values)
    (n : String) :
    (opts.foldl (fun v o => TranslateOption.apply o v) v) n =
      match lastOptionValue opts n with
      | some w => [w]
      | none => v n := by
  induction opts generalizing v with
  | nil => rfl
  | cons o os ih =>
    simp only [List.foldl_cons, lastOptionValue, ih]
    cases h : lastOptionValue os n with
    | some w => simp
    | none =>
      simp only [TranslateOption.apply_eq_set, Values.set]
      by_cases hk : o.key = n
      · simp [hk]
      · rw [if_neg (fun hh => hk hh.symm), if_neg hk]

lemma foldl_add_text_at_text (texts : List String) (v : Values) :
    (texts.foldl (fun v t => v.add "text" t) v) "text" = v "text" ++ texts := by
  induction texts generalizing v with
  | nil => simp
  | cons t ts ih =>
    simp only [List.foldl_cons, ih, Values.add]
    simp

lemma foldl_add_text_other (texts : List String) (v : Values) (n : String)
    (h : n ≠ "text") :
    (texts.foldl (fun v t => v.add "text" t) v) n = v n := by
  induction texts generalizing v with
  | nil => rfl
  | cons t ts ih =>
    simp only [List.foldl_cons, ih, Values.add]
    rw [if_neg h]

/-! ### Claim theorems: C1 and C2 -/

/-- C1: the parameter bag built by `TranslateMany` maps `target_lang` to the
single target language, maps `text` to the input texts in input order with
duplicates kept, and maps every other parameter name to exactly the value
written by the last option in the sequence that set that name (a singleton,
never duplicated), or to nothing when no option set it. -/
theorem C1_parameter_bag :
    ∀ (texts : List String) (targetLang : Language)
      (opts : List TranslateOption) (name : String),
      buildTranslateValues texts targetLang opts "target_lang" = [targetLang] ∧
      buildTranslateValues texts targetLang opts "text" = texts ∧
      (name ≠ "target_lang" → name ≠ "text" →
        buildTranslateValues texts targetLang opts name =
          match lastOptionValue opts name with
          | some w => [w]
          | none => []) := by
  intro texts targetLang opts name
  refine ⟨?_, ?_, fun h1 h2 => ?_⟩
  · rw [buildTranslateValues, foldl_apply_values,
      lastOptionValue_eq_none opts _ TranslateOption.key_ne_target_lang,
      foldl_add_text_other _ _ _ (by decide)]
    simp [Values.set]
  · rw [buildTranslateValues, foldl_apply_values,
      lastOptionValue_eq_none opts _ TranslateOption.key_ne_text,
      foldl_add_text_at_text]
    simp [Values.set, Values.empty]
  · rw [buildTranslateValues, foldl_apply_values]
    cases h : lastOptionValue opts name with
    | some w => simp
    | none =>
      rw [foldl_add_text_other _ _ _ h2]
      simp [Values.set, Values.empty, h1]

/-- C1 witness: instantiating `C1_parameter_bag` with three texts (one
duplicated) and two options that both set `source_lang`; the bag keeps the
texts in order and only the later `source_lang` value. -/
theorem C1_parameter_bag_witness :
    buildTranslateValues ["a", "b", "a"] "DE"
      [.SourceLang "EN", .GlossaryID "g1", .SourceLang "FR"] "target_lang" =
      ["DE"] ∧
    buildTranslateValues ["a", "b", "a"] "DE"
      [.SourceLang "EN", .GlossaryID "g1", .SourceLang "FR"] "text" =
      ["a", "b", "a"] ∧
    buildTranslateValues ["a", "b", "a"] "DE"
      [.SourceLang "EN", .GlossaryID "g1", .SourceLang "FR"] "source_lang" =
      ["FR"] := by
  have h := C1_parameter_bag ["a", "b", "a"] "DE"
    [.SourceLang "EN", .GlossaryID "g1", .SourceLang "FR"] "source_lang"
  exact ⟨h.1, h.2.1, (h.2.2 (by decide) (by decide)).trans (by decide)⟩

/-- C2: `Translate` delegates to `TranslateMany` with the one-element text
list; when that call succeeds with an empty result list, `Translate` returns
the dedicated "no translations" error, which is distinct from every typed
remote-rejection error; when it succeeds with a non-empty list, `Translate`
returns the first result's text and detected source language unmodified. -/
theorem C2_translate_single :
    ∀ (transport : TranslateTransport) (text : String) (targetLang : Language)
      (opts : List TranslateOption) (ts : List Translation),
      TranslateMany transport [text] targetLang opts = .ok ts →
      ((ts = [] →
          Translate transport text targetLang opts =
            .error (.message "deepl responded with no translations")) ∧
       (∀ t rest, ts = t :: rest →
          Translate transport text targetLang opts =
            .ok (t.Text, t.DetectedSourceLanguage)) ∧
       (∀ e : Error,
          OpError.message "deepl responded with no translations" ≠
            .remote e)) := by
  intro transport text targetLang opts ts h
  refine ⟨fun he => ?_, fun t rest he => ?_, fun e hc => ?_⟩
  · subst he
    simp [Translate, h]
  · subst he
    simp [Translate, h]
  · cases hc

/-- C2 witness: instantiating `C2_translate_single` with a mock transport
returning zero results, and with one returning a single result. -/
theorem C2_translate_single_witness :
    Translate (fun _ => .ok ⟨200, .ok ⟨[]⟩⟩) "hi" "DE" [] =
      .error (.message "deepl responded with no translations") ∧
    Translate (fun _ => .ok ⟨200, .ok ⟨[⟨"EN", "Hallo", none⟩]⟩⟩) "hi" "DE" [] =
      .ok ("Hallo", "EN") := by
  constructor
  · exact (C2_translate_single (fun _ => .ok ⟨200, .ok ⟨[]⟩⟩) "hi" "DE" [] []
      (by decide)).1 rfl
  · exact (C2_translate_single (fun _ => .ok ⟨200, .ok ⟨[⟨"EN", "Hallo", none⟩]⟩⟩)
      "hi" "DE" [] [⟨"EN", "Hallo", none⟩] (by decide)).2.1 _ _ rfl

/-! ### Lemmas about the TSV codec -/

lemma splitOnChar_not_mem (sep : Char) (s : GoStr) (h : sep ∉ s) :
    splitOnChar sep s = [s] := by
  induction s with
  | nil => rfl
  | cons c rest ih =>
    have h1 : ¬(c = sep) := fun he => h (by simp [he])
    have h2 : sep ∉ rest := fun hm => h (by simp [hm])
    simp only [splitOnChar, if_neg h1, ih h2]

lemma splitOnChar_append_sep (sep : Char) (s t : GoStr) (h : sep ∉ s) :
    splitOnChar sep (s ++ sep :: t) = s :: splitOnChar sep t := by
  induction s with
  | nil => simp [splitOnChar]
  | cons c rest ih =>
    have h1 : ¬(c = sep) := fun he => h (by simp [he])
    have h2 : sep ∉ rest := fun hm => h (by simp [hm])
    simp only [List.cons_append, splitOnChar, List.append_eq, if_neg h1, ih h2]

lemma joinWith_lines_split (sep : Char) (lines : List GoStr)
    (h : ∀ l ∈ lines, sep ∉ l) (hne : lines ≠ []) :
    splitOnChar sep (joinWith sep lines) = lines := by
  induction lines with
  | nil => exact absurd rfl hne
  | cons l rest ih =>
    cases rest with
    | nil => exact splitOnChar_not_mem sep l (h l (by simp))
    | cons l2 rest2 =>
      show splitOnChar sep (l ++ sep :: joinWith sep (l2 :: rest2)) = _
      rw [splitOnChar_append_sep sep _ _ (h l (by simp)),
        ih (fun x hx => h x (by simp [hx])) (by simp)]

lemma getLast?_ne_nil_elem (l : List GoStr) (h : ∀ x ∈ l, x ≠ []) :
    l.getLast? ≠ some [] := by
  intro hc
  obtain ⟨hne, hx⟩ :=
    List.mem_getLast?_eq_getLast (Option.mem_def.mpr hc)
  exact h _ (hx ▸ List.getLast_mem hne) rfl

lemma map_dropCR_id (l : List GoStr) (h : ∀ x ∈ l, x.getLast? ≠ some '\r') :
    l.map dropCR = l := by
  induction l with
  | nil => rfl
  | cons x rest ih =>
    rw [List.map_cons, dropCR, if_neg (h x (by simp)),
      ih (fun y hy => h y (by simp [hy]))]

lemma scanLines_joinWith (lines : List GoStr)
    (hn : ∀ l ∈ lines, '\n' ∉ l)
    (hne : ∀ l ∈ lines, l ≠ [])
    (hcr : ∀ l ∈ lines, l.getLast? ≠ some '\r') :
    scanLines (joinWith '\n' lines) = lines := by
  cases lines with
  | nil => rfl
  | cons l rest =>
    rw [scanLines, joinWith_lines_split '\n' _ hn (by simp),
      dropFinalEmpty, if_neg (getLast?_ne_nil_elem _ hne)]
    exact map_dropCR_id _ hcr

lemma decodeEntryLines_encode (entries : List GlossaryEntry)
    (h : ∀ e ∈ entries, '\t' ∉ e.Source ∧ '\t' ∉ e.Target) :
    decodeEntryLines (entries.map fun e => e.Source ++ '\t' :: e.Target) =
      .ok entries := by
  induction entries with
  | nil => rfl
  | cons e rest ih =>
    have he := h e (by simp)
    have hline : splitOnChar '\t' (e.Source ++ '\t' :: e.Target) =
        [e.Source, e.Target] := by
      rw [splitOnChar_append_sep _ _ _ he.1, splitOnChar_not_mem _ _ he.2]
    simp only [List.map_cons, decodeEntryLines, hline,
      ih (fun x hx => h x (by simp [hx]))]

lemma decodeEntryLines_ok_iff (lines : List GoStr) :
    (∃ es, decodeEntryLines lines = .ok es) ↔
      ∀ l ∈ lines, (splitOnChar '\t' l).length = 2 := by
  induction lines with
  | nil => simp [decodeEntryLines]
  | cons l rest ih =>
    rcases hsp : splitOnChar '\t' l with _ | ⟨a, _ | ⟨b, _ | ⟨c, r⟩⟩⟩
    · simp only [decodeEntryLines, hsp]
      constructor
      · rintro ⟨es, hes⟩; cases hes
      · intro hall
        have := hall l (by simp)
        rw [hsp] at this
        simp at this
    · simp only [decodeEntryLines, hsp]
      constructor
      · rintro ⟨es, hes⟩; cases hes
      · intro hall
        have := hall l (by simp)
        rw [hsp] at this
        simp at this
    · simp only [decodeEntryLines, hsp]
      cases hr : decodeEntryLines rest with
      | ok es =>
        constructor
        · intro _ x hx
          rcases List.mem_cons.mp hx with rfl | hx'
          · rw [hsp]; rfl
          · exact (ih.mp ⟨es, hr⟩) x hx'
        · intro _; exact ⟨_, rfl⟩
      | error e =>
        constructor
        · rintro ⟨es, hes⟩; cases hes
        · intro hall
          obtain ⟨es, hes⟩ := ih.mpr (fun x hx => hall x (by simp [hx]))
          rw [hr] at hes; cases hes
    · simp only [decodeEntryLines, hsp]
      constructor
      · rintro ⟨es, hes⟩; cases hes
      · intro hall
        have := hall l (by simp)
        rw [hsp] at this
        simp at this

lemma decodeEntryLines_error_of_bad (lines : List GoStr)
    (h : ¬ ∀ l ∈ lines, (splitOnChar '\t' l).length = 2) :
    ∃ line, decodeEntryLines lines = .error line := by
  cases hd : decodeEntryLines lines with
  | ok es => exact absurd ((decodeEntryLines_ok_iff lines).mp ⟨es, hd⟩) h
  | error l => exact ⟨l, rfl⟩

/-! ### Claim theorems: C3, C4 and C8 -/

/-- C3 counterexample: entries free of tab and newline characters need not
round-trip: a Target ending in a carriage return satisfies the claim's
hypothesis, yet the scanner of `ListGlossaryEntries` strips the trailing
carriage return, so decoding returns a different entry. -/
theorem C3_counterexample :
    '\t' ∉ gs "a" ∧ '\n' ∉ gs "a" ∧ '\t' ∉ gs "b\r" ∧ '\n' ∉ gs "b\r" ∧
    decodeEntries (encodeEntriesTSV [⟨gs "a", gs "b\r"⟩]) =
      .ok [⟨gs "a", gs "b"⟩] ∧
    decodeEntries (encodeEntriesTSV [⟨gs "a", gs "b\r"⟩]) ≠
      .ok [⟨gs "a", gs "b\r"⟩] := by
  decide

/-- C3 (amended): encoding a list of glossary entries to TSV and decoding it
back yields the original list, for entries whose Source and Target contain no
tab and no newline characters and whose Target does not end with a carriage
return. -/
theorem C3_amended_tsv_roundtrip :
    ∀ entries : List GlossaryEntry,
      (∀ e ∈ entries,
        '\t' ∉ e.Source ∧ '\n' ∉ e.Source ∧ '\t' ∉ e.Target ∧
        '\n' ∉ e.Target ∧ e.Target.getLast? ≠ some '\r') →
      decodeEntries (encodeEntriesTSV entries) = .ok entries := by
  intro entries h
  rw [decodeEntries, encodeEntriesTSV, scanLines_joinWith]
  · exact decodeEntryLines_encode entries
      (fun e he => ⟨(h e he).1, (h e he).2.2.1⟩)
  · intro l hl
    obtain ⟨e, he, rfl⟩ := List.mem_map.mp hl
    have hh := h e he
    intro hmem
    rcases List.mem_append.mp hmem with hs | ht
    · exact hh.2.1 hs
    · rcases List.mem_cons.mp ht with hc | ht'
      · cases hc
      · exact hh.2.2.2.1 ht'
  · intro l hl
    obtain ⟨e, he, rfl⟩ := List.mem_map.mp hl
    simp
  · intro l hl
    obtain ⟨e, he, rfl⟩ := List.mem_map.mp hl
    rw [List.getLast?_append_cons]
    cases ht : e.Target with
    | nil => simp
    | cons a t2 =>
      rw [List.getLast?_cons_cons, ← ht]
      exact (h e he).2.2.2.2

/-- C3 witness: instantiating `C3_amended_tsv_roundtrip` on two concrete
entries, one of them with empty source and target. -/
theorem C3_amended_tsv_roundtrip_witness :
    decodeEntries (encodeEntriesTSV [⟨gs "hello", gs "welt"⟩, ⟨gs "", gs ""⟩]) =
      .ok [⟨gs "hello", gs "welt"⟩, ⟨gs "", gs ""⟩] :=
  C3_amended_tsv_roundtrip [⟨gs "hello", gs "welt"⟩, ⟨gs "", gs ""⟩] (by decide)

/-- C4: if any scanned line splits on the tab character into a number of
fields other than two, the whole decode fails with a malformed-entry error
(no partial list is returned); if every scanned line splits into exactly two
fields, decoding succeeds. -/
theorem C4_malformed_line_aborts :
    ∀ s : GoStr,
      ((∀ l ∈ scanLines s, (splitOnChar '\t' l).length = 2) →
        ∃ es, decodeEntries s = .ok es) ∧
      ((∃ l ∈ scanLines s, (splitOnChar '\t' l).length ≠ 2) →
        ∃ line, decodeEntries s = .error line) := by
  intro s
  constructor
  · intro h
    exact (decodeEntryLines_ok_iff (scanLines s)).mpr h
  · rintro ⟨l, hl, h2⟩
    exact decodeEntryLines_error_of_bad _ (fun hall => h2 (hall l hl))

/-- C4 witness: instantiating `C4_malformed_line_aborts` on a well-formed
two-line input and on a tab-free input. -/
theorem C4_malformed_line_aborts_witness :
    (∃ es, decodeEntries (gs "a\tb\nc\td") = .ok es) ∧
    (∃ line, decodeEntries (gs "x") = .error line) :=
  ⟨(C4_malformed_line_aborts (gs "a\tb\nc\td")).1 (by decide),
   (C4_malformed_line_aborts (gs "x")).2 ⟨gs "x", by decide, by decide⟩⟩

/-- C8 counterexample: an empty line is not skipped by the decoder: the input
`"a\tb\nc\td"` decodes fine, but inserting one empty line between the two
entries makes the whole decode fail with the malformed-entry error (carrying
the empty offending line), so an empty line does by itself cause a decode
failure instead of producing no entry. -/
theorem C8_counterexample :
    decodeEntries (gs "a\tb\nc\td") =
      .ok [⟨gs "a", gs "b"⟩, ⟨gs "c", gs "d"⟩] ∧
    decodeEntries (gs "a\tb\n\nc\td") = .error [] := by
  decide

/-- C8 (amended): every scanned line, including empty ones, is split on the
tab character; an empty line splits into a single field, so any empty line
among the scanned lines makes the whole decode fail with a malformed-entry
error. -/
theorem C8_amended_empty_line_fails :
    ∀ s : GoStr, [] ∈ scanLines s →
      ∃ line, decodeEntries s = .error line := by
  intro s hmem
  refine decodeEntryLines_error_of_bad _ (fun hall => ?_)
  have := hall [] hmem
  simp [splitOnChar] at this

/-- C8 witness: instantiating `C8_amended_empty_line_fails` on an input whose
second scanned line is empty. -/
theorem C8_amended_empty_line_fails_witness :
    ∃ line, decodeEntries (gs "a\tb\n\n") = .error line :=
  C8_amended_empty_line_fails (gs "a\tb\n\n") (by decide)

end Deepl
